import Mathlib

/-
Shallow embedding of the HHMS analytics-service anomaly pipeline:
  analytics-service/main.py        (process_vital_sign_event, redis_listener,
                                    create_or_update_threshold, manual_analysis)
  analytics-service/models/models.py   (Threshold, AnomalyEvent tables)
  analytics-service/models/schemas.py  (MetricType, AlertSeverity, ThresholdCreate)

Modelling conventions:
- Python numbers carried by a JSON payload are either ints or floats; a float is
  modelled as the exact rational value it denotes, and the Python string
  interpolation of a float (its shortest round-trip decimal representation) is
  modelled by the exact finite decimal expansion of that rational.  All float
  literals occurring in this development have short exact decimal expansions,
  for which the two notions coincide.
- Database effects (SELECT / add / commit) are modelled by explicit state
  passing: the thresholds table is a list of Threshold rows, the anomalies
  table a list of AnomalyEvent rows.  A commit appends the whole pending batch
  at once; a failed commit, or any exception raised before the commit, leaves
  the committed list unchanged (SQLAlchemy session semantics: pending objects
  added with session.add are not visible until commit).
- datetime.fromisoformat is modelled by an arbitrary parameter
  parseTs : String -> Option String; none models a raised ValueError.
  A missing dictionary key under data[...] models a raised KeyError.
- Network effects (httpx.post to the alerts service) are modelled by a list of
  attempted requests plus an oracle dispatchOk : Nat -> Bool telling whether
  the i-th post raised httpx.HTTPError; commit failure is the oracle commitOk.
- logger.error calls are modelled as a list of log strings.
-/

/-- Numeric value as produced by json.loads: a Python int or a Python float
(modelled as the exact rational it denotes). -/
inductive PyVal where
  | vint : Int → PyVal
  | vfloat : Rat → PyVal
deriving DecidableEq

/-- Numeric magnitude of a Python value; Python compares int and float
numerically, and float(x) yields this magnitude. -/
def PyVal.toRat : PyVal → Rat
  | .vint n => (n : Rat)
  | .vfloat q => q

/-- Decimal digits of the fractional part r/d, produced most significant
first; fuel bounds the recursion (d steps suffice for any terminating
expansion of denominator d). -/
def fracDigitsAux : Nat → Nat → Nat → String
  | 0, _, _ => ""
  | _, 0, _ => ""
  | fuel+1, r, d =>
      let r10 := r * 10
      toString (r10 / d) ++ fracDigitsAux fuel (r10 % d) d

/-- Python string interpolation of a float: sign, integer part, a dot and the
fractional digits, with ".0" for integral floats (repr(110.0) = "110.0"). -/
def ratFloatRepr (q : Rat) : String :=
  let sign := if q < 0 then "-" else ""
  let a := q.num.natAbs
  let d := q.den
  let frac := if a % d = 0 then "0" else fracDigitsAux d (a % d) d
  sign ++ toString (a / d) ++ "." ++ frac

/-- Python string interpolation of a JSON number: ints print without a decimal
point, floats with one. -/
def PyVal.pystr : PyVal → String
  | .vint n => toString n
  | .vfloat q => ratFloatRepr q

/-- Interpolation of an Optional[float] column value (None prints as "None";
that branch is unreachable where the code uses it). -/
def optFloatRepr : Option Rat → String
  | some q => ratFloatRepr q
  | none => "None"

/-- MetricType enum of models/schemas.py. -/
inductive MetricType where
  | heart_rate
  | spo2
  | respiratory_rate
  | systolic_bp
  | diastolic_bp
  | temperature
  | glucose
deriving DecidableEq

/-- String value of a MetricType member (th.metric.value). -/
def MetricType.value : MetricType → String
  | .heart_rate => "heart_rate"
  | .spo2 => "spo2"
  | .respiratory_rate => "respiratory_rate"
  | .systolic_bp => "systolic_bp"
  | .diastolic_bp => "diastolic_bp"
  | .temperature => "temperature"
  | .glucose => "glucose"

/-- AlertSeverity enum of models/schemas.py. -/
inductive AlertSeverity where
  | info
  | warning
  | critical
deriving DecidableEq

/-- String value of an AlertSeverity member. -/
def AlertSeverity.value : AlertSeverity → String
  | .info => "info"
  | .warning => "warning"
  | .critical => "critical"

/-- Row of the thresholds table (models/models.py, class Threshold).
Timestamps are abstract ticks; min_value and max_value are Float columns, so
they always hold Python floats (pydantic coerces the ThresholdCreate payload
and the database round-trip yields floats). -/
structure Threshold where
  id : Option Int
  patient_id : String
  metric : MetricType
  min_value : Option Rat
  max_value : Option Rat
  created_at : Nat
  updated_at : Option Nat
deriving DecidableEq

/-- Row of the anomalies table (models/models.py, class AnomalyEvent); the
surrogate id is omitted, timestamp is the parsed datetime carried as the
parser output. -/
structure AnomalyEvent where
  patient_id : String
  metric : MetricType
  observed_value : Rat
  severity : AlertSeverity
  description : String
  timestamp : String
  threshold_id : Option Int
deriving DecidableEq

/-- Decoded JSON object of a vital-signs bus message: data.get("patient_id"),
data.get("timestamp") and data.get(metric name) lookups. null-valued and
absent metric fields both yield none, as dict.get does for evaluation
purposes. -/
structure VitalData where
  patient_id : Option String
  timestamp : Option String
  metrics : MetricType → Option PyVal

/-- Body of an httpx.post to the alerts service notifications endpoint. -/
structure AlertRequest where
  patient_id : String
  message : String
  severity : String
deriving DecidableEq

/-- Observable state threaded through the pipeline: committed anomaly rows,
attempted alert requests, emitted error logs. -/
structure SysState where
  db : List AnomalyEvent
  alerts : List AlertRequest
  logs : List String
deriving DecidableEq

def pushLog (s : String) (st : SysState) : SysState :=
  ⟨st.db, st.alerts, st.logs ++ [s]⟩

def pushAlert (r : AlertRequest) (st : SysState) : SysState :=
  ⟨st.db, st.alerts ++ [r], st.logs⟩

def commitBatch (l : List AnomalyEvent) (st : SysState) : SysState :=
  ⟨st.db ++ l, st.alerts, st.logs⟩

/-- Test observed_value < th.min_value when a min is configured
(main.py line 107). -/
def belowMin (v : Rat) : Option Rat → Bool
  | some m => v < m
  | none => false

/-- Test observed_value > th.max_value when a max is configured
(main.py line 109). -/
def aboveMax (v : Rat) : Option Rat → Bool
  | some m => v > m
  | none => false

/-- Violation description of the live path (main.py lines 105-110): an
if/elif chain interpolating the raw payload value. -/
def liveViolationDesc (name : String) (v : PyVal) (mn mx : Option Rat) :
    Option String :=
  if belowMin v.toRat mn then
    some (name ++ " " ++ v.pystr ++ " < min " ++ optFloatRepr mn)
  else if aboveMax v.toRat mx then
    some (name ++ " " ++ v.pystr ++ " > max " ++ optFloatRepr mx)
  else
    none

/-- Violation description of the manual path (main.py lines 350-355): two
independent if statements on the float-converted value, the second
overwriting the first, so a sample below min and above max reports the max
violation. -/
def manualViolationDesc (name : String) (observed : Rat) (mn mx : Option Rat) :
    Option String :=
  let d0 : Option String :=
    if belowMin observed mn then
      some (name ++ " " ++ ratFloatRepr observed ++ " < min " ++ optFloatRepr mn)
    else none
  if aboveMax observed mx then
    some (name ++ " " ++ ratFloatRepr observed ++ " > max " ++ optFloatRepr mx)
  else d0

/-- SELECT Threshold WHERE patient_id == pid for the decoded (optional)
patient id; patient_id is a non-nullable column, so comparing against a
missing (None) id matches no row. -/
def thresholdsForPatient (table : List Threshold) :
    Option String → List Threshold
  | none => []
  | some pid => table.filter (fun th => decide (th.patient_id = pid))

/-- One iteration of the threshold loop of process_vital_sign_event
(main.py lines 98-124): skip an absent metric value, otherwise evaluate the
if/elif violation check and, on violation, construct the AnomalyEvent -
raising KeyError when data has no "timestamp" key and ValueError when
datetime.fromisoformat rejects it. -/
def buildAnomaly (parseTs : String → Option String) (data : VitalData)
    (pid : String) (th : Threshold) : Except String (Option AnomalyEvent) :=
  match data.metrics th.metric with
  | none => .ok none
  | some v =>
    match liveViolationDesc th.metric.value v th.min_value th.max_value with
    | none => .ok none
    | some desc =>
      match data.timestamp with
      | none => .error ("KeyError: timestamp")
      | some ts =>
        match parseTs ts with
        | none => .error ("Invalid isoformat string: " ++ ts)
        | some parsed =>
          .ok (some ⟨pid, th.metric, v.toRat, .warning, desc, parsed, th.id⟩)

/-- The threshold loop of process_vital_sign_event: collects the pending
anomaly batch in order, aborting the whole event on the first raised
exception. -/
def buildAnomalies (parseTs : String → Option String) (data : VitalData)
    (pid : String) : List Threshold → Except String (List AnomalyEvent)
  | [] => .ok []
  | th :: rest =>
    match buildAnomaly parseTs data pid th with
    | .error e => .error e
    | .ok none => buildAnomalies parseTs data pid rest
    | .ok (some a) => (buildAnomalies parseTs data pid rest).map (fun l => a :: l)

/-- Alert request body sent for one anomaly (main.py lines 132-140). -/
def mkAlertRequest (a : AnomalyEvent) : AlertRequest :=
  ⟨a.patient_id, "Anomaly Detected: " ++ a.description, a.severity.value⟩

/-- The dispatch loop after a successful commit (main.py lines 129-142): one
fire-and-forget post per anomaly, an httpx.HTTPError (dispatchOk i = false)
is caught and logged. -/
def dispatchAnomalies (dispatchOk : Nat → Bool) :
    Nat → List AnomalyEvent → SysState → SysState
  | _, [], st => st
  | i, a :: rest, st =>
    let st1 := pushAlert (mkAlertRequest a) st
    let st2 := if dispatchOk i then st1
               else pushLog ("Failed to trigger alert service") st1
    dispatchAnomalies dispatchOk (i+1) rest st2

/-- process_vital_sign_event (main.py lines 76-145): fetch thresholds, return
if none, build the pending batch, commit it as one batch, then dispatch; any
exception before or at the commit is caught by the top-level handler, logged,
and leaves the committed rows unchanged. -/
def process_vital_sign_event (parseTs : String → Option String)
    (table : List Threshold) (commitOk : Bool) (dispatchOk : Nat → Bool)
    (data : VitalData) (st : SysState) : SysState :=
  let thresholds := thresholdsForPatient table data.patient_id
  match data.patient_id, thresholds with
  | _, [] => st
  | none, _ => st
  | some pid, th0 :: rest =>
    match buildAnomalies parseTs data pid (th0 :: rest) with
    | .error e => pushLog ("Error processing event: " ++ e) st
    | .ok anomalies =>
      if anomalies.isEmpty then st
      else if commitOk then
        dispatchAnomalies dispatchOk 0 anomalies (commitBatch anomalies st)
      else pushLog ("Error processing event: commit failed") st

/-- A raw bus message as seen by the listener: either json.loads succeeds and
yields a decoded object, or it raises (non-parseable payload). -/
inductive RawMessage where
  | parsed : VitalData → RawMessage
  | malformed : String → RawMessage

/-- One iteration of the redis_listener loop body (main.py lines 160-166):
a json.loads failure is logged and the message discarded; otherwise the
event is processed (whose own handler already contains all its failures). -/
def listenerStep (parseTs : String → Option String) (table : List Threshold)
    (commitOk : Bool) (dispatchOk : Nat → Bool) (msg : RawMessage)
    (st : SysState) : SysState :=
  match msg with
  | .malformed e => pushLog ("Invalid message format: " ++ e) st
  | .parsed data => process_vital_sign_event parseTs table commitOk dispatchOk data st

/-- The redis_listener loop over a finite message sequence, each message
paired with its commit and dispatch oracles. -/
def redis_listener (parseTs : String → Option String) (table : List Threshold) :
    List (RawMessage × Bool × (Nat → Bool)) → SysState → SysState
  | [], st => st
  | (msg, cOk, dOk) :: rest, st =>
    redis_listener parseTs table rest (listenerStep parseTs table cOk dOk msg st)

example : liveViolationDesc ("heart_rate") (.vfloat 110) (some 60) (some 100)
    = some ("heart_rate 110.0 > max 100.0") := by decide

example : liveViolationDesc ("heart_rate") (.vint 110) (some 60) (some 100)
    = some ("heart_rate 110 > max 100.0") := by decide

example : manualViolationDesc ("heart_rate") ((110 : Int) : Rat) (some 60) (some 100)
    = some ("heart_rate 110.0 > max 100.0") := by decide

example : liveViolationDesc ("heart_rate") (.vfloat 100) (some 60) (some 100) = none := by
  decide

/-- ThresholdCreate payload (models/schemas.py): pydantic validates
min_value and max_value as Optional[float], so integer JSON bounds are
coerced to floats before they reach the table. -/
structure ThresholdCreate where
  patient_id : String
  metric : MetricType
  min_value : Option Rat
  max_value : Option Rat
deriving DecidableEq

/-- create_or_update_threshold (main.py lines 256-285): the first stored row
matching (patient_id, metric) has its min_value, max_value and updated_at
overwritten in place; with no match a fresh row is appended. -/
def create_or_update_threshold (now : Nat) (newId : Int)
    (payload : ThresholdCreate) : List Threshold → List Threshold
  | [] => [⟨some newId, payload.patient_id, payload.metric,
            payload.min_value, payload.max_value, now, some now⟩]
  | th :: rest =>
    if th.patient_id = payload.patient_id ∧ th.metric = payload.metric then
      ⟨th.id, th.patient_id, th.metric, payload.min_value, payload.max_value,
       th.created_at, some now⟩ :: rest
    else
      th :: create_or_update_threshold now newId payload rest

/-- A sequence of administrative upsert calls applied in order. -/
def applyUpserts : List (Nat × Int × ThresholdCreate) → List Threshold → List Threshold
  | [], table => table
  | (now, newId, payload) :: ops, table =>
    applyUpserts ops (create_or_update_threshold now newId payload table)

/-- Python ts_str.replace("Z", "+00:00"): since the pattern is the single
character Z, every occurrence of Z in the string is replaced by +00:00. -/
def replaceZ (s : String) : String :=
  ⟨s.data.flatMap (fun c => if c = ('Z' : Char) then ("+00:00").data else [c])⟩

/-- One sample returned by the patient-data-service history endpoint:
p.get("value") and p.get("timestamp"). -/
structure HistoryPoint where
  value : Option PyVal
  timestamp : Option String
deriving DecidableEq

/-- Per-sample body of the manual_analysis loop (main.py lines 344-369):
skip samples without a value, float-convert, evaluate both bound checks,
and on violation build the AnomalyEvent from the Z-normalised timestamp;
a missing or unparseable timestamp raises out of the endpoint. -/
def manualCheckPoint (parseTs : String → Option String) (pid : String)
    (th : Threshold) (p : HistoryPoint) : Except String (Option AnomalyEvent) :=
  match p.value with
  | none => .ok none
  | some val =>
    let observed := val.toRat
    match manualViolationDesc th.metric.value observed th.min_value th.max_value with
    | none => .ok none
    | some desc =>
      match p.timestamp with
      | none => .error ("AttributeError: NoneType has no attribute replace")
      | some ts =>
        match parseTs (replaceZ ts) with
        | none => .error ("Invalid isoformat string: " ++ ts)
        | some parsed =>
          .ok (some ⟨pid, th.metric, observed, .warning, desc, parsed, th.id⟩)

/-- The inner points loop of manual_analysis for one threshold. -/
def manualCheckPoints (parseTs : String → Option String) (pid : String)
    (th : Threshold) : List HistoryPoint → Except String (List AnomalyEvent)
  | [] => .ok []
  | p :: rest =>
    match manualCheckPoint parseTs pid th p with
    | .error e => .error e
    | .ok none => manualCheckPoints parseTs pid th rest
    | .ok (some a) => (manualCheckPoints parseTs pid th rest).map (fun l => a :: l)

/-- The outer thresholds loop of manual_analysis: a failed or non-200 history
fetch (history th.metric = none) skips that metric and continues. -/
def manualCollect (parseTs : String → Option String) (pid : String)
    (history : MetricType → Option (List HistoryPoint)) :
    List Threshold → Except String (List AnomalyEvent)
  | [] => .ok []
  | th :: rest =>
    match history th.metric with
    | none => manualCollect parseTs pid history rest
    | some pts =>
      match manualCheckPoints parseTs pid th pts with
      | .error e => .error e
      | .ok l => (manualCollect parseTs pid history rest).map (fun acc => l ++ acc)

/-- manual_analysis (main.py lines 309-378) on the anomalies table: returns
the table after the run together with the batch the endpoint returns; the
whole batch is committed at once at the end of the run. -/
def manual_analysis (parseTs : String → Option String) (pid : String)
    (table : List Threshold) (history : MetricType → Option (List HistoryPoint))
    (db : List AnomalyEvent) :
    Except String (List AnomalyEvent × List AnomalyEvent) :=
  match thresholdsForPatient table (some pid) with
  | [] => .ok (db, [])
  | th0 :: rest =>
    match manualCollect parseTs pid history (th0 :: rest) with
    | .error e => .error e
    | .ok anomalies => .ok (db ++ anomalies, anomalies)

/-- Anomaly rows committed by one listener step: empty unless the decoded
event reaches a successful commit of a nonempty batch. -/
def stepAnoms (parseTs : String → Option String) (table : List Threshold)
    (commitOk : Bool) (msg : RawMessage) : List AnomalyEvent :=
  match msg with
  | .malformed _ => []
  | .parsed data =>
    match data.patient_id, thresholdsForPatient table data.patient_id with
    | _, [] => []
    | none, _ => []
    | some pid, th0 :: rest =>
      match buildAnomalies parseTs data pid (th0 :: rest) with
      | .error _ => []
      | .ok l => if l.isEmpty then [] else if commitOk then l else []

/-- Anomaly rows committed over a whole message sequence, one batch per
message. -/
def listenerAnoms (parseTs : String → Option String) (table : List Threshold) :
    List (RawMessage × Bool × (Nat → Bool)) → List AnomalyEvent
  | [] => []
  | (msg, cOk, _) :: rest =>
    stepAnoms parseTs table cOk msg ++ listenerAnoms parseTs table rest

theorem dispatchAnomalies_db (dOk : Nat → Bool) (l : List AnomalyEvent) :
    ∀ (i : Nat) (st : SysState), (dispatchAnomalies dOk i l st).db = st.db := by
  induction l with
  | nil => intro i st; rfl
  | cons a rest ih =>
      intro i st
      simp only [dispatchAnomalies]
      rw [ih]
      cases dOk i <;> simp [pushAlert, pushLog]

theorem dispatchAnomalies_alerts (dOk : Nat → Bool) (l : List AnomalyEvent) :
    ∀ (i : Nat) (st : SysState),
      (dispatchAnomalies dOk i l st).alerts = st.alerts ++ l.map mkAlertRequest := by
  induction l with
  | nil => intro i st; simp [dispatchAnomalies]
  | cons a rest ih =>
      intro i st
      simp only [dispatchAnomalies]
      rw [ih]
      cases dOk i <;> simp [pushAlert, pushLog]

theorem process_db (parseTs : String → Option String) (table : List Threshold)
    (commitOk : Bool) (dispatchOk : Nat → Bool) (data : VitalData) (st : SysState) :
    (process_vital_sign_event parseTs table commitOk dispatchOk data st).db
      = st.db ++ stepAnoms parseTs table commitOk (.parsed data) := by
  unfold process_vital_sign_event stepAnoms
  cases hpid : data.patient_id with
  | none => simp [hpid, thresholdsForPatient]
  | some pid =>
      cases hth : thresholdsForPatient table (some pid) with
      | nil => simp [hpid, hth]
      | cons th0 rest =>
          cases hb : buildAnomalies parseTs data pid (th0 :: rest) with
          | error e => simp [hpid, hth, hb, pushLog]
          | ok l =>
              by_cases hl : l = []
              · simp [hpid, hth, hb, hl]
              · cases commitOk with
                | false => simp [hpid, hth, hb, hl, pushLog]
                | true => simp [hpid, hth, hb, hl, dispatchAnomalies_db, commitBatch]

theorem process_alerts (parseTs : String → Option String) (table : List Threshold)
    (commitOk : Bool) (dispatchOk : Nat → Bool) (data : VitalData) (st : SysState) :
    (process_vital_sign_event parseTs table commitOk dispatchOk data st).alerts
      = st.alerts
        ++ (stepAnoms parseTs table commitOk (.parsed data)).map mkAlertRequest := by
  unfold process_vital_sign_event stepAnoms
  cases hpid : data.patient_id with
  | none => simp [hpid, thresholdsForPatient]
  | some pid =>
      cases hth : thresholdsForPatient table (some pid) with
      | nil => simp [hpid, hth]
      | cons th0 rest =>
          cases hb : buildAnomalies parseTs data pid (th0 :: rest) with
          | error e => simp [hpid, hth, hb, pushLog]
          | ok l =>
              by_cases hl : l = []
              · simp [hpid, hth, hb, hl]
              · cases commitOk with
                | false => simp [hpid, hth, hb, hl, pushLog]
                | true => simp [hpid, hth, hb, hl, dispatchAnomalies_alerts, commitBatch]

theorem listenerStep_db (parseTs : String → Option String) (table : List Threshold)
    (commitOk : Bool) (dispatchOk : Nat → Bool) (msg : RawMessage) (st : SysState) :
    (listenerStep parseTs table commitOk dispatchOk msg st).db
      = st.db ++ stepAnoms parseTs table commitOk msg := by
  cases msg with
  | malformed e => simp [listenerStep, stepAnoms, pushLog]
  | parsed data => exact process_db parseTs table commitOk dispatchOk data st

theorem redis_listener_db (parseTs : String → Option String) (table : List Threshold)
    (msgs : List (RawMessage × Bool × (Nat → Bool))) :
    ∀ (st : SysState),
      (redis_listener parseTs table msgs st).db
        = st.db ++ listenerAnoms parseTs table msgs := by
  induction msgs with
  | nil => intro st; simp [redis_listener, listenerAnoms]
  | cons m rest ih =>
      intro st
      obtain ⟨msg, cOk, dOk⟩ := m
      simp only [redis_listener, listenerAnoms]
      rw [ih, listenerStep_db]
      simp

theorem belowMin_iff (v : Rat) (mn : Option Rat) :
    belowMin v mn = true ↔ ∃ m, mn = some m ∧ v < m := by
  cases mn <;> simp [belowMin]

theorem aboveMax_iff (v : Rat) (mx : Option Rat) :
    aboveMax v mx = true ↔ ∃ m, mx = some m ∧ m < v := by
  cases mx <;> simp [aboveMax]

theorem liveViolationDesc_isSome (name : String) (v : PyVal) (mn mx : Option Rat) :
    (liveViolationDesc name v mn mx).isSome
      = (belowMin v.toRat mn || aboveMax v.toRat mx) := by
  unfold liveViolationDesc
  by_cases h1 : belowMin v.toRat mn = true <;>
    by_cases h2 : aboveMax v.toRat mx = true <;>
      simp [h1, h2]

theorem manualViolationDesc_isSome (name : String) (o : Rat) (mn mx : Option Rat) :
    (manualViolationDesc name o mn mx).isSome
      = (belowMin o mn || aboveMax o mx) := by
  unfold manualViolationDesc
  by_cases h1 : belowMin o mn = true <;>
    by_cases h2 : aboveMax o mx = true <;>
      simp [h1, h2]

theorem buildAnomalies_all_none (parseTs : String → Option String)
    (data : VitalData) (pid : String) :
    ∀ (ths : List Threshold), (∀ t ∈ ths, data.metrics t.metric = none) →
      buildAnomalies parseTs data pid ths = .ok [] := by
  intro ths
  induction ths with
  | nil => intro _; rfl
  | cons th rest ih =>
      intro h
      have hh := h th (List.mem_cons_self th rest)
      have hr := ih (fun t ht => h t (List.mem_cons_of_mem th ht))
      simp [buildAnomalies, buildAnomaly, hh, hr]

/-- C1: for a decoded reading with a parseable timestamp, the live evaluation
produces an anomaly for a threshold t exactly when the reading carries a
non-null value v for the metric of t and either a configured min bound with
v strictly below it or a configured max bound with v strictly above it
(equality at a bound is not a violation); and when the patient has no
configured thresholds, or no metric of the reading has a threshold, the
evaluation leaves the whole state unchanged: no anomalies, no alerts and no
error log. -/
theorem live_violation_iff (parseTs : String → Option String)
    (table : List Threshold) (commitOk : Bool) (dispatchOk : Nat → Bool)
    (data : VitalData) (pid : String) (th : Threshold) (ts ts0 : String)
    (st : SysState)
    (hts : data.timestamp = some ts) (hparse : parseTs ts = some ts0) :
    ((∃ a, buildAnomaly parseTs data pid th = .ok (some a)) ↔
      (∃ v, data.metrics th.metric = some v ∧
        ((∃ m, th.min_value = some m ∧ v.toRat < m)
          ∨ (∃ M, th.max_value = some M ∧ M < v.toRat))))
    ∧ (thresholdsForPatient table data.patient_id = [] →
        process_vital_sign_event parseTs table commitOk dispatchOk data st = st)
    ∧ ((∀ t ∈ thresholdsForPatient table data.patient_id,
          data.metrics t.metric = none) →
        process_vital_sign_event parseTs table commitOk dispatchOk data st = st) := by
  refine ⟨?_, ?_, ?_⟩
  · cases hv : data.metrics th.metric with
    | none =>
        have e : buildAnomaly parseTs data pid th = .ok none := by
          simp [buildAnomaly, hv]
        simp [e, hv]
    | some v =>
        have hbm := liveViolationDesc_isSome th.metric.value v th.min_value th.max_value
        cases hd : liveViolationDesc th.metric.value v th.min_value th.max_value with
        | none =>
            have e : buildAnomaly parseTs data pid th = .ok none := by
              simp [buildAnomaly, hv, hd]
            rw [hd] at hbm
            simp only [Option.isSome_none] at hbm
            have hbm2 := Bool.or_eq_false_iff.mp hbm.symm
            constructor
            · rintro ⟨a, ha⟩
              rw [e] at ha
              simp at ha
            · rintro ⟨v', hv', hcond⟩
              injection hv' with hv''
              subst hv''
              exfalso
              rcases hcond with ⟨m, hm, hlt⟩ | ⟨M, hM, hgt⟩
              · have hb : belowMin v.toRat th.min_value = true :=
                  (belowMin_iff _ _).2 ⟨m, hm, hlt⟩
                rw [hb] at hbm2
                simp at hbm2
              · have hb : aboveMax v.toRat th.max_value = true :=
                  (aboveMax_iff _ _).2 ⟨M, hM, hgt⟩
                rw [hb] at hbm2
                simp at hbm2
        | some desc =>
            have e : buildAnomaly parseTs data pid th
                = .ok (some ⟨pid, th.metric, v.toRat, .warning, desc, ts0, th.id⟩) := by
              simp [buildAnomaly, hv, hd, hts, hparse]
            rw [hd] at hbm
            simp only [Option.isSome_some] at hbm
            constructor
            · intro _
              refine ⟨v, rfl, ?_⟩
              rcases Bool.or_eq_true_iff.mp hbm.symm with hb | hb
              · exact Or.inl ((belowMin_iff _ _).1 hb)
              · exact Or.inr ((aboveMax_iff _ _).1 hb)
            · intro _
              exact ⟨⟨pid, th.metric, v.toRat, .warning, desc, ts0, th.id⟩, e⟩
  · intro hemp
    unfold process_vital_sign_event
    cases hpid : data.patient_id with
    | none => simp [hpid, thresholdsForPatient]
    | some p =>
        rw [hpid] at hemp
        simp [hpid, hemp]
  · intro hnone
    unfold process_vital_sign_event
    cases hpid : data.patient_id with
    | none => simp [hpid, thresholdsForPatient]
    | some p =>
        rw [hpid] at hnone
        cases hth : thresholdsForPatient table (some p) with
        | nil => simp [hpid, hth]
        | cons th0 rest =>
            rw [hth] at hnone
            have hb := buildAnomalies_all_none parseTs data p (th0 :: rest) hnone
            simp [hpid, hth, hb]

/-- Timestamp parser fixture accepting every string. -/
def tsOk : String → Option String := fun s => some s

/-- Heart-rate threshold fixture for patient p1: min 60.0, max 100.0 (floats,
as the Float columns store them). -/
def thHr : Threshold := ⟨some 1, "p1", .heart_rate, some 60, some 100, 0, some 0⟩

/-- SpO2 threshold fixture for patient p1: min 90.0, no max. -/
def thSpo2 : Threshold := ⟨some 2, "p1", .spo2, some 90, none, 0, some 0⟩

/-- Reading fixture: heart_rate 110.0 for patient p1. -/
def dataHr110 : VitalData :=
  ⟨some ("p1"), some ("2024-05-01T10:00:00"),
   fun m => if m = .heart_rate then some (.vfloat 110) else none⟩

/-- Concrete instantiation of live_violation_iff at the heart-rate fixture. -/
theorem live_violation_iff_witness :
    ((∃ a, buildAnomaly tsOk dataHr110 ("p1") thHr = .ok (some a)) ↔
      (∃ v, dataHr110.metrics thHr.metric = some v ∧
        ((∃ m, thHr.min_value = some m ∧ v.toRat < m)
          ∨ (∃ M, thHr.max_value = some M ∧ M < v.toRat))))
    ∧ (thresholdsForPatient [thHr] dataHr110.patient_id = [] →
        process_vital_sign_event tsOk [thHr] true (fun _ => true) dataHr110
          ⟨[], [], []⟩ = ⟨[], [], []⟩)
    ∧ ((∀ t ∈ thresholdsForPatient [thHr] dataHr110.patient_id,
          dataHr110.metrics t.metric = none) →
        process_vital_sign_event tsOk [thHr] true (fun _ => true) dataHr110
          ⟨[], [], []⟩ = ⟨[], [], []⟩) :=
  live_violation_iff tsOk [thHr] true (fun _ => true) dataHr110 ("p1") thHr
    ("2024-05-01T10:00:00") ("2024-05-01T10:00:00") ⟨[], [], []⟩ rfl rfl

/-- C2 counterexample: with a threshold min=60.0, max=100.0 (floats, exactly
what the Float columns hold after the pydantic-coerced upsert) and a reading
heart_rate=110.0, the live evaluation yields exactly one anomaly, and its
description is "heart_rate 110.0 > max 100.0" - the stored float bound prints
with a trailing ".0" - which is not the claimed "heart_rate 110.0 > max 100". -/
theorem description_example_cex :
    (process_vital_sign_event tsOk [thHr] true (fun _ => true) dataHr110
        ⟨[], [], []⟩).db
      = [⟨"p1", .heart_rate, 110, .warning, ("heart_rate 110.0 > max 100.0"),
          ("2024-05-01T10:00:00"), some 1⟩]
    ∧ ("heart_rate 110.0 > max 100.0") ≠ ("heart_rate 110.0 > max 100") := by
  exact ⟨by decide, by decide⟩

/-- C2 amended: every anomaly description produced by the live path is exactly
"<metric> <v> < min <t.min>" or "<metric> <v> > max <t.max>" where v is the
raw payload value and the bound prints as the stored float; the backfill path
prints the float-converted value; and for a threshold with min=60.0 and
max=100.0 and a reading with heart_rate=110.0 the evaluation yields exactly
one anomaly whose description is exactly "heart_rate 110.0 > max 100.0". -/
theorem description_format :
    (∀ (name : String) (v : PyVal) (mn mx : Option Rat) (d : String),
        liveViolationDesc name v mn mx = some d →
        (∃ m, mn = some m
            ∧ d = name ++ " " ++ v.pystr ++ " < min " ++ ratFloatRepr m)
          ∨ (∃ M, mx = some M
            ∧ d = name ++ " " ++ v.pystr ++ " > max " ++ ratFloatRepr M))
    ∧ (∀ (name : String) (o : Rat) (mn mx : Option Rat) (d : String),
        manualViolationDesc name o mn mx = some d →
        (∃ m, mn = some m
            ∧ d = name ++ " " ++ ratFloatRepr o ++ " < min " ++ ratFloatRepr m)
          ∨ (∃ M, mx = some M
            ∧ d = name ++ " " ++ ratFloatRepr o ++ " > max " ++ ratFloatRepr M))
    ∧ (process_vital_sign_event tsOk [thHr] true (fun _ => true) dataHr110
          ⟨[], [], []⟩).db
        = [⟨"p1", .heart_rate, 110, .warning, ("heart_rate 110.0 > max 100.0"),
            ("2024-05-01T10:00:00"), some 1⟩] := by
  refine ⟨?_, ?_, by decide⟩
  · intro name v mn mx d hd
    unfold liveViolationDesc at hd
    by_cases h1 : belowMin v.toRat mn = true
    · rw [if_pos h1] at hd
      injection hd with hd'
      obtain ⟨m, hm, _⟩ := (belowMin_iff _ _).1 h1
      left
      refine ⟨m, hm, ?_⟩
      rw [← hd', hm]
      rfl
    · rw [if_neg h1] at hd
      by_cases h2 : aboveMax v.toRat mx = true
      · rw [if_pos h2] at hd
        injection hd with hd'
        obtain ⟨M, hM, _⟩ := (aboveMax_iff _ _).1 h2
        right
        refine ⟨M, hM, ?_⟩
        rw [← hd', hM]
        rfl
      · rw [if_neg h2] at hd
        exact absurd hd (by simp)
  · intro name o mn mx d hd
    simp only [manualViolationDesc] at hd
    by_cases h2 : aboveMax o mx = true
    · rw [if_pos h2] at hd
      injection hd with hd'
      obtain ⟨M, hM, _⟩ := (aboveMax_iff _ _).1 h2
      right
      refine ⟨M, hM, ?_⟩
      rw [← hd', hM]
      rfl
    · rw [if_neg h2] at hd
      by_cases h1 : belowMin o mn = true
      · rw [if_pos h1] at hd
        injection hd with hd'
        obtain ⟨m, hm, _⟩ := (belowMin_iff _ _).1 h1
        left
        refine ⟨m, hm, ?_⟩
        rw [← hd', hm]
        rfl
      · rw [if_neg h1] at hd
        exact absurd hd (by simp)

/-- Concrete instantiation of the live description format at the heart-rate
fixture. -/
theorem description_format_witness :
    (∃ m, some (60 : Rat) = some m
        ∧ ("heart_rate 110.0 > max 100.0")
            = "heart_rate" ++ " " ++ (PyVal.vfloat 110).pystr ++ " < min "
              ++ ratFloatRepr m)
      ∨ (∃ M, some (100 : Rat) = some M
        ∧ ("heart_rate 110.0 > max 100.0")
            = "heart_rate" ++ " " ++ (PyVal.vfloat 110).pystr ++ " > max "
              ++ ratFloatRepr M) :=
  description_format.1 ("heart_rate") (.vfloat 110) (some 60) (some 100)
    ("heart_rate 110.0 > max 100.0") (by decide)

theorem stepAnoms_commit_failed (parseTs : String → Option String)
    (table : List Threshold) (msg : RawMessage) :
    stepAnoms parseTs table false msg = [] := by
  cases msg with
  | malformed e => rfl
  | parsed data =>
      unfold stepAnoms
      cases hpid : data.patient_id with
      | none => simp [hpid, thresholdsForPatient]
      | some pid =>
          cases hth : thresholdsForPatient table (some pid) with
          | nil => simp [hpid, hth]
          | cons th0 rest =>
              cases hb : buildAnomalies parseTs data pid (th0 :: rest) with
              | error e => simp [hpid, hth, hb]
              | ok l => simp [hpid, hth, hb]

/-- C3: the anomalies derived from one reading are committed as one atomic
batch - the committed table is either unchanged or extended by exactly the
whole batch the evaluation derived; a failed commit records none of them;
and a failure on one message leaves the contribution of all subsequent
messages of the consumer loop intact. -/
theorem batch_atomic_isolated (parseTs : String → Option String)
    (table : List Threshold) (commitOk : Bool) (dispatchOk : Nat → Bool)
    (data : VitalData) (st : SysState) (msg : RawMessage) (cOk : Bool)
    (dOk : Nat → Bool) (msgs : List (RawMessage × Bool × (Nat → Bool))) :
    ((process_vital_sign_event parseTs table commitOk dispatchOk data st).db = st.db
      ∨ ∃ pid l, data.patient_id = some pid
          ∧ buildAnomalies parseTs data pid (thresholdsForPatient table (some pid))
              = .ok l
          ∧ (process_vital_sign_event parseTs table commitOk dispatchOk data st).db
              = st.db ++ l)
    ∧ (commitOk = false →
        (process_vital_sign_event parseTs table commitOk dispatchOk data st).db
          = st.db)
    ∧ ((redis_listener parseTs table ((msg, cOk, dOk) :: msgs) st).db
        = (st.db ++ stepAnoms parseTs table cOk msg)
            ++ listenerAnoms parseTs table msgs) := by
  refine ⟨?_, ?_, ?_⟩
  · rw [process_db]
    unfold stepAnoms
    cases hpid : data.patient_id with
    | none => left; simp [hpid, thresholdsForPatient]
    | some pid =>
        cases hth : thresholdsForPatient table (some pid) with
        | nil => left; simp [hpid, hth]
        | cons th0 rest =>
            cases hb : buildAnomalies parseTs data pid (th0 :: rest) with
            | error e => left; simp [hpid, hth, hb]
            | ok l =>
                by_cases hl : l = []
                · left; simp [hpid, hth, hb, hl]
                · cases commitOk with
                  | false => left; simp [hpid, hth, hb, hl]
                  | true =>
                      right
                      refine ⟨pid, l, rfl, ?_, ?_⟩
                      · rw [hth]; exact hb
                      · simp [hpid, hth, hb, hl]
  · intro hc
    subst hc
    rw [process_db, stepAnoms_commit_failed]
    simp
  · rw [redis_listener_db]
    simp [listenerAnoms, List.append_assoc]

/-- Concrete instantiation of batch_atomic_isolated: with a failing commit the
violating heart-rate reading records nothing. -/
theorem batch_atomic_isolated_witness :
    (process_vital_sign_event tsOk [thHr] false (fun _ => true) dataHr110
        ⟨[], [], []⟩).db = [] :=
  (batch_atomic_isolated tsOk [thHr] false (fun _ => true) dataHr110
      ⟨[], [], []⟩ (.parsed dataHr110) false (fun _ => true) []).2.1 rfl

/-- Reading fixture without a patient_id, carrying a violating heart-rate
value. -/
def dataNoPid : VitalData :=
  ⟨none, some ("2024-05-01T10:00:00"),
   fun m => if m = .heart_rate then some (.vfloat 150) else none⟩

/-- C4 counterexample: a decoded message with no patient_id whose value would
violate a configured threshold is discarded without any log: the listener
step returns the state unchanged, so nothing is logged (the threshold query
for a missing id simply matches no rows), contradicting that such a message
is logged as a decode error. -/
theorem missing_patient_id_not_logged_cex :
    listenerStep tsOk [thHr] true (fun _ => true) (.parsed dataNoPid)
        ⟨[], [], []⟩ = ⟨[], [], []⟩
    ∧ (listenerStep tsOk [thHr] true (fun _ => true) (.parsed dataNoPid)
        ⟨[], [], []⟩).logs = [] := by
  exact ⟨by decide, by decide⟩

/-- C4 amended: a non-parseable message is logged and discarded; a parsed
message with no patient_id is silently discarded (state unchanged, no log
line); in both cases no anomaly is recorded and the consumer continues: the
rows committed after the rest of the sequence are exactly those of the
remaining messages. -/
theorem decode_error_handling (parseTs : String → Option String)
    (table : List Threshold) (cOk : Bool) (dOk : Nat → Bool) (e : String)
    (data : VitalData) (st : SysState)
    (msgs : List (RawMessage × Bool × (Nat → Bool)))
    (hpid : data.patient_id = none) :
    listenerStep parseTs table cOk dOk (.malformed e) st
        = pushLog ("Invalid message format: " ++ e) st
    ∧ listenerStep parseTs table cOk dOk (.parsed data) st = st
    ∧ (redis_listener parseTs table ((.malformed e, cOk, dOk) :: msgs) st).db
        = st.db ++ listenerAnoms parseTs table msgs
    ∧ (redis_listener parseTs table ((.parsed data, cOk, dOk) :: msgs) st).db
        = st.db ++ listenerAnoms parseTs table msgs := by
  have hstep : listenerStep parseTs table cOk dOk (.parsed data) st = st := by
    simp [listenerStep, process_vital_sign_event, hpid, thresholdsForPatient]
  refine ⟨rfl, hstep, ?_, ?_⟩
  · rw [redis_listener_db]
    simp [listenerAnoms, stepAnoms]
  · rw [redis_listener_db]
    have hsa : stepAnoms parseTs table cOk (.parsed data) = [] := by
      unfold stepAnoms
      simp [hpid, thresholdsForPatient]
    simp [listenerAnoms, hsa]

/-- Concrete instantiation of decode_error_handling at the missing-id
fixture followed by one valid message. -/
theorem decode_error_handling_witness :
    listenerStep tsOk [thHr] true (fun _ => true) (.malformed ("not json"))
        ⟨[], [], []⟩
      = pushLog ("Invalid message format: " ++ "not json") ⟨[], [], []⟩
    ∧ listenerStep tsOk [thHr] true (fun _ => true) (.parsed dataNoPid)
        ⟨[], [], []⟩ = ⟨[], [], []⟩
    ∧ (redis_listener tsOk [thHr]
        [(.malformed ("not json"), true, fun _ => true),
         (.parsed dataHr110, true, fun _ => true)] ⟨[], [], []⟩).db
      = [] ++ listenerAnoms tsOk [thHr] [(.parsed dataHr110, true, fun _ => true)]
    ∧ (redis_listener tsOk [thHr]
        [(.parsed dataNoPid, true, fun _ => true),
         (.parsed dataHr110, true, fun _ => true)] ⟨[], [], []⟩).db
      = [] ++ listenerAnoms tsOk [thHr] [(.parsed dataHr110, true, fun _ => true)] :=
  decode_error_handling tsOk [thHr] true (fun _ => true) ("not json") dataNoPid
    ⟨[], [], []⟩ [(.parsed dataHr110, true, fun _ => true)] rfl

/-- Two threshold rows with different (patient_id, metric) keys. -/
def distinctKeys (a b : Threshold) : Prop :=
  ¬(a.patient_id = b.patient_id ∧ a.metric = b.metric)

/-- The unique_patient_metric_threshold constraint of the thresholds table:
no two rows share a (patient_id, metric) key. -/
def atMostOnePerKey (table : List Threshold) : Prop :=
  List.Pairwise distinctKeys table

/-- Test whether a stored row carries the key of an upsert payload. -/
def matchesKey (p : ThresholdCreate) (th : Threshold) : Bool :=
  decide (th.patient_id = p.patient_id ∧ th.metric = p.metric)

theorem mem_upsert (now : Nat) (newId : Int) (p : ThresholdCreate) :
    ∀ (l : List Threshold) (b : Threshold),
      b ∈ create_or_update_threshold now newId p l →
      (∃ a ∈ l, b.patient_id = a.patient_id ∧ b.metric = a.metric)
      ∨ (b.patient_id = p.patient_id ∧ b.metric = p.metric) := by
  intro l
  induction l with
  | nil =>
      intro b hb
      simp [create_or_update_threshold] at hb
      subst hb
      right
      exact ⟨rfl, rfl⟩
  | cons th rest ih =>
      intro b hb
      by_cases hm : th.patient_id = p.patient_id ∧ th.metric = p.metric
      · rw [create_or_update_threshold, if_pos hm] at hb
        rcases List.mem_cons.mp hb with rfl | hb2
        · exact Or.inl ⟨th, List.mem_cons_self th rest, rfl, rfl⟩
        · exact Or.inl ⟨b, List.mem_cons_of_mem th hb2, rfl, rfl⟩
      · rw [create_or_update_threshold, if_neg hm] at hb
        rcases List.mem_cons.mp hb with rfl | hb2
        · exact Or.inl ⟨b, List.mem_cons_self b rest, rfl, rfl⟩
        · rcases ih b hb2 with ⟨a, ha, e1, e2⟩ | hk
          · exact Or.inl ⟨a, List.mem_cons_of_mem th ha, e1, e2⟩
          · exact Or.inr hk

theorem upsert_preserves (now : Nat) (newId : Int) (p : ThresholdCreate) :
    ∀ (l : List Threshold), atMostOnePerKey l →
      atMostOnePerKey (create_or_update_threshold now newId p l) := by
  intro l
  induction l with
  | nil =>
      intro _
      simp [create_or_update_threshold, atMostOnePerKey]
  | cons th rest ih =>
      intro hinv
      rw [atMostOnePerKey, List.pairwise_cons] at hinv
      obtain ⟨hhead, hrest⟩ := hinv
      by_cases hm : th.patient_id = p.patient_id ∧ th.metric = p.metric
      · rw [create_or_update_threshold, if_pos hm]
        rw [atMostOnePerKey, List.pairwise_cons]
        exact ⟨fun b hb => hhead b hb, hrest⟩
      · rw [create_or_update_threshold, if_neg hm]
        rw [atMostOnePerKey, List.pairwise_cons]
        refine ⟨?_, ih hrest⟩
        intro b hb
        rcases mem_upsert now newId p rest b hb with ⟨a, ha, e1, e2⟩ | ⟨e1, e2⟩
        · intro hc
          exact hhead a ha ⟨hc.1.trans e1, hc.2.trans e2⟩
        · intro hc
          exact hm ⟨hc.1.trans e1, hc.2.trans e2⟩

theorem applyUpserts_preserves :
    ∀ (ops : List (Nat × Int × ThresholdCreate)) (table : List Threshold),
      atMostOnePerKey table → atMostOnePerKey (applyUpserts ops table) := by
  intro ops
  induction ops with
  | nil => intro table h; exact h
  | cons op rest ih =>
      intro table h
      obtain ⟨now, newId, p⟩ := op
      exact ih _ (upsert_preserves now newId p table h)

theorem upsert_key_rows (now : Nat) (newId : Int) (p : ThresholdCreate) :
    ∀ (l : List Threshold), atMostOnePerKey l →
      ∃ r, (create_or_update_threshold now newId p l).filter (matchesKey p) = [r]
        ∧ r.patient_id = p.patient_id ∧ r.metric = p.metric
        ∧ r.min_value = p.min_value ∧ r.max_value = p.max_value
        ∧ r.updated_at = some now := by
  intro l
  induction l with
  | nil =>
      intro _
      refine ⟨⟨some newId, p.patient_id, p.metric, p.min_value, p.max_value,
               now, some now⟩, ?_, rfl, rfl, rfl, rfl, rfl⟩
      simp [create_or_update_threshold, List.filter, matchesKey]
  | cons th rest ih =>
      intro hinv
      rw [atMostOnePerKey, List.pairwise_cons] at hinv
      obtain ⟨hhead, hrest⟩ := hinv
      by_cases hm : th.patient_id = p.patient_id ∧ th.metric = p.metric
      · refine ⟨⟨th.id, th.patient_id, th.metric, p.min_value, p.max_value,
                 th.created_at, some now⟩, ?_, hm.1, hm.2, rfl, rfl, rfl⟩
        rw [create_or_update_threshold, if_pos hm, List.filter_cons]
        have hxf : matchesKey p
            (⟨th.id, th.patient_id, th.metric, p.min_value, p.max_value,
              th.created_at, some now⟩ : Threshold) = true := by
          simp [matchesKey, hm.1, hm.2]
        rw [hxf]
        have hrf : rest.filter (matchesKey p) = [] := by
          rw [List.filter_eq_nil_iff]
          intro b hb
          have hd := hhead b hb
          simp only [matchesKey, decide_eq_true_eq]
          intro hc
          exact hd ⟨hm.1.trans hc.1.symm, hm.2.trans hc.2.symm⟩
        rw [hrf]
        simp
      · obtain ⟨r, hfil, hr⟩ := ih hrest
        refine ⟨r, ?_, hr⟩
        rw [create_or_update_threshold, if_neg hm, List.filter_cons]
        have hf : matchesKey p th = false := by
          simp only [matchesKey, decide_eq_false_iff_not]
          exact hm
        rw [hf]
        simp [hfil]

theorem upsert_length_of_present (now : Nat) (newId : Int) (p : ThresholdCreate) :
    ∀ (l : List Threshold), (∃ th ∈ l, matchesKey p th = true) →
      (create_or_update_threshold now newId p l).length = l.length := by
  intro l
  induction l with
  | nil =>
      intro h
      simp at h
  | cons th rest ih =>
      intro h
      by_cases hm : th.patient_id = p.patient_id ∧ th.metric = p.metric
      · rw [create_or_update_threshold, if_pos hm]
        simp
      · rw [create_or_update_threshold, if_neg hm]
        simp only [List.length_cons]
        have hrest : ∃ a ∈ rest, matchesKey p a = true := by
          obtain ⟨a, ha, hk⟩ := h
          rcases List.mem_cons.mp ha with rfl | ha2
          · exact absurd (by simpa [matchesKey] using hk) hm
          · exact ⟨a, ha2, hk⟩
        rw [ih hrest]

theorem matchesKey_congr (p1 p2 : ThresholdCreate) (th : Threshold)
    (h1 : p1.patient_id = p2.patient_id) (h2 : p1.metric = p2.metric) :
    matchesKey p1 th = matchesKey p2 th := by
  simp [matchesKey, h1, h2]

/-- C5: the threshold store keeps at most one row per (patient_id, metric)
across any sequence of upserts; an upsert whose key is already stored
changes no row count (update in place); and upserting the same key twice
leaves exactly one row for that key, carrying the latest bounds and
updated_at. -/
theorem threshold_upsert_unique
    (ops : List (Nat × Int × ThresholdCreate)) (table : List Threshold)
    (now1 now2 : Nat) (id1 id2 : Int) (p1 p2 : ThresholdCreate)
    (hinv : atMostOnePerKey table)
    (hkp : p1.patient_id = p2.patient_id) (hkm : p1.metric = p2.metric) :
    atMostOnePerKey (applyUpserts ops table)
    ∧ ((∃ th ∈ table, matchesKey p1 th = true) →
        (create_or_update_threshold now1 id1 p1 table).length = table.length)
    ∧ ((create_or_update_threshold now2 id2 p2
          (create_or_update_threshold now1 id1 p1 table)).length
        = (create_or_update_threshold now1 id1 p1 table).length)
    ∧ (∃ r, (create_or_update_threshold now2 id2 p2
            (create_or_update_threshold now1 id1 p1 table)).filter (matchesKey p2)
          = [r]
        ∧ r.patient_id = p2.patient_id ∧ r.metric = p2.metric
        ∧ r.min_value = p2.min_value ∧ r.max_value = p2.max_value
        ∧ r.updated_at = some now2) := by
  have hinv1 := upsert_preserves now1 id1 p1 table hinv
  refine ⟨applyUpserts_preserves ops table hinv,
    upsert_length_of_present now1 id1 p1 table, ?_,
    upsert_key_rows now2 id2 p2 _ hinv1⟩
  apply upsert_length_of_present
  obtain ⟨r, hfil, hpid, hmet, _⟩ := upsert_key_rows now1 id1 p1 table hinv
  have hrmem : r ∈ (create_or_update_threshold now1 id1 p1 table).filter
      (matchesKey p1) := by
    rw [hfil]
    exact List.mem_singleton.mpr rfl
  have hmem := List.mem_filter.mp hrmem
  refine ⟨r, hmem.1, ?_⟩
  rw [← matchesKey_congr p1 p2 r hkp hkm]
  exact hmem.2

/-- First upsert payload fixture for the heart-rate key of p1. -/
def tcHr1 : ThresholdCreate := ⟨"p1", .heart_rate, some 50, some 90⟩

/-- Second upsert payload fixture for the same key with different bounds. -/
def tcHr2 : ThresholdCreate := ⟨"p1", .heart_rate, some 60, some 100⟩

/-- Concrete instantiation of threshold_upsert_unique: upserting the same
heart-rate key twice adds no second row. -/
theorem threshold_upsert_unique_witness :
    (create_or_update_threshold 2 2 tcHr2
        (create_or_update_threshold 1 1 tcHr1 [thSpo2])).length
      = (create_or_update_threshold 1 1 tcHr1 [thSpo2]).length :=
  (threshold_upsert_unique [(3, 3, tcHr1)] [thSpo2] 1 2 1 2 tcHr1 tcHr2
      (by simp [atMostOnePerKey]) rfl rfl).2.2.1

theorem desc_agree (name : String) (q : Rat) (mn mx : Option Rat)
    (hnot : ¬(belowMin q mn = true ∧ aboveMax q mx = true)) :
    liveViolationDesc name (.vfloat q) mn mx = manualViolationDesc name q mn mx := by
  unfold liveViolationDesc manualViolationDesc
  by_cases h1 : belowMin q mn = true
  · have h2 : aboveMax q mx = false := by
      cases ha : aboveMax q mx with
      | false => rfl
      | true => exact absurd ⟨h1, ha⟩ hnot
    simp [PyVal.toRat, PyVal.pystr, h1, h2]
  · have h1f : belowMin q mn = false := by
      cases hb : belowMin q mn with
      | false => rfl
      | true => exact absurd hb h1
    by_cases h2 : aboveMax q mx = true
    · simp [PyVal.toRat, PyVal.pystr, h1f, h2]
    · have h2f : aboveMax q mx = false := by
        cases ha : aboveMax q mx with
        | false => rfl
        | true => exact absurd ha h2
      simp [PyVal.toRat, PyVal.pystr, h1f, h2f]

/-- C6 counterexample: the live path and the manual/backfill path disagree on
the description of the same sample against the same threshold. With bounds
min=100.0 and max=50.0 (no validation forbids min above max) and value 70.0,
both bounds are violated: the live if/elif reports the min violation while
the manual second if overwrites with the max violation. With bounds
min=60.0, max=100.0 and the integer payload value 110, the live path prints
the raw int ("110") while the manual path prints the float conversion
("110.0"). -/
theorem manual_live_divergence_cex :
    liveViolationDesc ("heart_rate") (.vfloat 70) (some 100) (some 50)
        = some ("heart_rate 70.0 < min 100.0")
    ∧ manualViolationDesc ("heart_rate") 70 (some 100) (some 50)
        = some ("heart_rate 70.0 > max 50.0")
    ∧ ("heart_rate 70.0 < min 100.0") ≠ ("heart_rate 70.0 > max 50.0")
    ∧ liveViolationDesc ("heart_rate") (.vint 110) (some 60) (some 100)
        = some ("heart_rate 110 > max 100.0")
    ∧ manualViolationDesc ("heart_rate") ((110 : Int) : Rat) (some 60) (some 100)
        = some ("heart_rate 110.0 > max 100.0")
    ∧ ("heart_rate 110 > max 100.0") ≠ ("heart_rate 110.0 > max 100.0") := by
  exact ⟨by decide, by decide, by decide, by decide, by decide, by decide⟩

/-- C6 amended: the two paths always agree on whether a sample produces an
anomaly; and whenever the sample value is a float and does not violate both
bounds at once, they also produce the identical description and, under
matching inputs (same patient, threshold, value and timestamp, the timestamp
unaffected by the Z normalisation), the identical anomaly record. -/
theorem manual_live_agree (name : String) (v : PyVal) (q : Rat)
    (mn mx : Option Rat)
    (hnot : ¬(belowMin q mn = true ∧ aboveMax q mx = true)) :
    ((liveViolationDesc name v mn mx).isSome
        = (manualViolationDesc name v.toRat mn mx).isSome)
    ∧ (liveViolationDesc name (.vfloat q) mn mx = manualViolationDesc name q mn mx)
    ∧ (∀ (parseTs : String → Option String) (data : VitalData) (pt : HistoryPoint)
         (pid : String) (th : Threshold) (ts : String),
         th.min_value = mn → th.max_value = mx →
         data.metrics th.metric = some (.vfloat q) → pt.value = some (.vfloat q) →
         data.timestamp = some ts → pt.timestamp = some ts →
         replaceZ ts = ts →
         buildAnomaly parseTs data pid th = manualCheckPoint parseTs pid th pt) := by
  refine ⟨?_, desc_agree name q mn mx hnot, ?_⟩
  · rw [liveViolationDesc_isSome, manualViolationDesc_isSome]
  · intro parseTs data pt pid th ts hmn hmx hv hpv hts hpts hrep
    subst hmn
    subst hmx
    have hdesc := desc_agree th.metric.value q th.min_value th.max_value hnot
    simp only [buildAnomaly, manualCheckPoint, hv, hpv, hts, hpts, hrep,
      PyVal.toRat, hdesc]

/-- Concrete instantiation of manual_live_agree: the two paths build the same
anomaly for the float heart-rate sample 110.0. -/
theorem manual_live_agree_witness :
    buildAnomaly tsOk dataHr110 ("p1") thHr
      = manualCheckPoint tsOk ("p1") thHr
          ⟨some (.vfloat 110), some ("2024-05-01T10:00:00")⟩ :=
  ((manual_live_agree ("heart_rate") (.vfloat 110) 110 (some 60) (some 100)
      (by decide)).2.2) tsOk dataHr110
    ⟨some (.vfloat 110), some ("2024-05-01T10:00:00")⟩ ("p1") thHr
    ("2024-05-01T10:00:00") rfl rfl (by decide) rfl rfl rfl (by decide)

/-- C7: alert dispatch is best-effort and fire-and-forget: the committed rows
do not depend on the dispatch outcomes (a failed post never rolls anything
back), the attempted posts are exactly one per committed anomaly whatever
the outcomes (no retry), a failed commit attempts no post (persistence
precedes dispatch), and even when every post fails the whole batch stays
committed. -/
theorem dispatch_best_effort (parseTs : String → Option String)
    (table : List Threshold) (dOk dOk2 : Nat → Bool) (data : VitalData)
    (st : SysState) :
    ((process_vital_sign_event parseTs table true dOk data st).db
        = (process_vital_sign_event parseTs table true dOk2 data st).db)
    ∧ ((process_vital_sign_event parseTs table true dOk data st).alerts
        = st.alerts
          ++ (stepAnoms parseTs table true (.parsed data)).map mkAlertRequest)
    ∧ ((process_vital_sign_event parseTs table false dOk data st).alerts
        = st.alerts)
    ∧ ((process_vital_sign_event parseTs table true (fun _ => false) data st).db
        = st.db ++ stepAnoms parseTs table true (.parsed data)) := by
  refine ⟨?_, process_alerts parseTs table true dOk data st, ?_,
    process_db parseTs table true (fun _ => false) data st⟩
  · rw [process_db, process_db]
  · rw [process_alerts, stepAnoms_commit_failed]
    simp

/-- C8: a reading violating the thresholds of two distinct metrics commits
exactly two anomaly rows, one per violated threshold, each attributed with
the patient of the reading, the metric of the threshold, the float-converted
observed value, WARNING severity, the parsed reading timestamp and the
threshold id. -/
theorem two_metric_attribution (parseTs : String → Option String)
    (dOk : Nat → Bool) (t1 t2 : Threshold) (pid ts ts0 d1 d2 : String)
    (v1 v2 : PyVal) (data : VitalData) (st : SysState)
    (_hmet : t1.metric ≠ t2.metric)
    (hp1 : t1.patient_id = pid) (hp2 : t2.patient_id = pid)
    (hdp : data.patient_id = some pid)
    (hv1 : data.metrics t1.metric = some v1)
    (hv2 : data.metrics t2.metric = some v2)
    (hts : data.timestamp = some ts)
    (hparse : parseTs ts = some ts0)
    (hd1 : liveViolationDesc t1.metric.value v1 t1.min_value t1.max_value = some d1)
    (hd2 : liveViolationDesc t2.metric.value v2 t2.min_value t2.max_value = some d2) :
    (process_vital_sign_event parseTs [t1, t2] true dOk data st).db
      = st.db ++ [⟨pid, t1.metric, v1.toRat, .warning, d1, ts0, t1.id⟩,
                  ⟨pid, t2.metric, v2.toRat, .warning, d2, ts0, t2.id⟩] := by
  rw [process_db]
  have hth : thresholdsForPatient [t1, t2] (some pid) = [t1, t2] := by
    simp [thresholdsForPatient, hp1, hp2]
  have hb1 : buildAnomaly parseTs data pid t1
      = .ok (some ⟨pid, t1.metric, v1.toRat, .warning, d1, ts0, t1.id⟩) := by
    simp [buildAnomaly, hv1, hd1, hts, hparse]
  have hb2 : buildAnomaly parseTs data pid t2
      = .ok (some ⟨pid, t2.metric, v2.toRat, .warning, d2, ts0, t2.id⟩) := by
    simp [buildAnomaly, hv2, hd2, hts, hparse]
  have hbb : buildAnomalies parseTs data pid [t1, t2]
      = .ok [⟨pid, t1.metric, v1.toRat, .warning, d1, ts0, t1.id⟩,
             ⟨pid, t2.metric, v2.toRat, .warning, d2, ts0, t2.id⟩] := by
    simp [buildAnomalies, hb1, hb2, Except.map]
  unfold stepAnoms
  simp [hdp, hth, hbb]

/-- Reading fixture violating both the heart-rate max and the SpO2 min. -/
def dataTwo : VitalData :=
  ⟨some ("p1"), some ("2024-05-01T10:00:00"),
   fun m => if m = .heart_rate then some (.vfloat 110)
            else if m = .spo2 then some (.vfloat 85) else none⟩

/-- Concrete instantiation of two_metric_attribution at the two-metric
fixture. -/
theorem two_metric_attribution_witness :
    (process_vital_sign_event tsOk [thHr, thSpo2] true (fun _ => true) dataTwo
        ⟨[], [], []⟩).db
      = [⟨"p1", .heart_rate, 110, .warning, ("heart_rate 110.0 > max 100.0"),
          ("2024-05-01T10:00:00"), some 1⟩,
         ⟨"p1", .spo2, 85, .warning, ("spo2 85.0 < min 90.0"),
          ("2024-05-01T10:00:00"), some 2⟩] :=
  two_metric_attribution tsOk (fun _ => true) thHr thSpo2 ("p1")
    ("2024-05-01T10:00:00") ("2024-05-01T10:00:00")
    ("heart_rate 110.0 > max 100.0") ("spo2 85.0 < min 90.0")
    (.vfloat 110) (.vfloat 85) dataTwo ⟨[], [], []⟩
    (by decide) rfl rfl rfl (by decide) (by decide) rfl rfl (by decide) (by decide)

/-- C9: the backfill path checks nothing against previously recorded
anomalies: a successful manual run appends its whole batch to the stored
table, and re-running it with the same patient, thresholds and historical
samples appends the identical batch a second time - starting from an empty
table the stored count doubles instead of staying fixed. -/
theorem backfill_duplicates (parseTs : String → Option String) (pid : String)
    (table : List Threshold) (history : MetricType → Option (List HistoryPoint))
    (db db1 batch : List AnomalyEvent)
    (hrun : manual_analysis parseTs pid table history db = .ok (db1, batch)) :
    db1 = db ++ batch
    ∧ manual_analysis parseTs pid table history db1
        = .ok (db ++ batch ++ batch, batch)
    ∧ (db ++ batch ++ batch).length = db.length + 2 * batch.length
    ∧ (db = [] → (db ++ batch ++ batch).length = 2 * db1.length) := by
  unfold manual_analysis at hrun ⊢
  cases hth : thresholdsForPatient table (some pid) with
  | nil =>
      rw [hth] at hrun
      simp only [Except.ok.injEq, Prod.mk.injEq] at hrun
      obtain ⟨h1, h2⟩ := hrun
      subst h2
      subst h1
      exact ⟨by simp, by simp, by simp, by intro h; subst h; simp⟩
  | cons th0 rest =>
      rw [hth] at hrun
      cases hc : manualCollect parseTs pid history (th0 :: rest) with
      | error e =>
          simp only [hc] at hrun
          exact absurd hrun (by simp)
      | ok anomalies =>
          simp only [hc, Except.ok.injEq, Prod.mk.injEq] at hrun
          obtain ⟨h1, h2⟩ := hrun
          subst h2
          subst h1
          refine ⟨rfl, ?_, ?_, ?_⟩
          · simp only [hc]
          · simp only [List.length_append]
            omega
          · intro hdb
            subst hdb
            simp only [List.nil_append, List.length_append]
            omega

/-- History fixture: one heart-rate sample 120.0 above the max bound. -/
def histOneHigh : MetricType → Option (List HistoryPoint) :=
  fun m => if m = .heart_rate
           then some [⟨some (.vfloat 120), some ("2024-05-01T09:30:00")⟩]
           else none

/-- Anomaly row the history fixture produces. -/
def evA : AnomalyEvent :=
  ⟨"p1", .heart_rate, 120, .warning, ("heart_rate 120.0 > max 100.0"),
   ("2024-05-01T09:30:00"), some 1⟩

/-- Concrete instantiation of backfill_duplicates at the one-sample history
fixture: the second identical run appends the same row again. -/
theorem backfill_duplicates_witness :
    [evA] = ([] : List AnomalyEvent) ++ [evA]
    ∧ manual_analysis tsOk ("p1") [thHr] histOneHigh [evA]
        = .ok (([] : List AnomalyEvent) ++ [evA] ++ [evA], [evA])
    ∧ (([] : List AnomalyEvent) ++ [evA] ++ [evA]).length
        = ([] : List AnomalyEvent).length + 2 * [evA].length
    ∧ (([] : List AnomalyEvent) = [] →
        (([] : List AnomalyEvent) ++ [evA] ++ [evA]).length = 2 * [evA].length) :=
  backfill_duplicates tsOk ("p1") [thHr] histOneHigh [] [evA] [evA] (by rfl)

theorem buildAnomaly_bad_ts (parseTs : String → Option String)
    (data : VitalData) (pid : String) (th : Threshold)
    (hbad : data.timestamp = none
      ∨ ∃ ts, data.timestamp = some ts ∧ parseTs ts = none) :
    buildAnomaly parseTs data pid th = .ok none
    ∨ ∃ e, buildAnomaly parseTs data pid th = .error e := by
  cases hv : data.metrics th.metric with
  | none => exact Or.inl (by simp [buildAnomaly, hv])
  | some v =>
      cases hd : liveViolationDesc th.metric.value v th.min_value th.max_value with
      | none => exact Or.inl (by simp [buildAnomaly, hv, hd])
      | some desc =>
          rcases hbad with hn | ⟨ts, hts, hp⟩
          · exact Or.inr ⟨"KeyError: timestamp", by simp [buildAnomaly, hv, hd, hn]⟩
          · exact Or.inr ⟨"Invalid isoformat string: " ++ ts,
              by simp [buildAnomaly, hv, hd, hts, hp]⟩

theorem buildAnomaly_error_of_violation (parseTs : String → Option String)
    (data : VitalData) (pid : String) (th : Threshold) (v : PyVal)
    (hbad : data.timestamp = none
      ∨ ∃ ts, data.timestamp = some ts ∧ parseTs ts = none)
    (hv : data.metrics th.metric = some v)
    (hd : (liveViolationDesc th.metric.value v th.min_value th.max_value).isSome
        = true) :
    ∃ e, buildAnomaly parseTs data pid th = .error e := by
  obtain ⟨d, hd2⟩ := Option.isSome_iff_exists.mp hd
  rcases hbad with hn | ⟨ts, hts, hp⟩
  · exact ⟨"KeyError: timestamp", by simp [buildAnomaly, hv, hd2, hn]⟩
  · exact ⟨"Invalid isoformat string: " ++ ts,
      by simp [buildAnomaly, hv, hd2, hts, hp]⟩

theorem buildAnomalies_bad_ts (parseTs : String → Option String)
    (data : VitalData) (pid : String)
    (hbad : data.timestamp = none
      ∨ ∃ ts, data.timestamp = some ts ∧ parseTs ts = none) :
    ∀ (ths : List Threshold),
      buildAnomalies parseTs data pid ths = .ok []
      ∨ ∃ e, buildAnomalies parseTs data pid ths = .error e := by
  intro ths
  induction ths with
  | nil => exact Or.inl rfl
  | cons th rest ih =>
      rcases buildAnomaly_bad_ts parseTs data pid th hbad with h0 | ⟨e, he⟩
      · rcases ih with h1 | ⟨e, h1⟩
        · exact Or.inl (by simp [buildAnomalies, h0, h1])
        · exact Or.inr ⟨e, by simp [buildAnomalies, h0, h1]⟩
      · exact Or.inr ⟨e, by simp [buildAnomalies, he]⟩

theorem buildAnomalies_error_of_violation (parseTs : String → Option String)
    (data : VitalData) (pid : String)
    (hbad : data.timestamp = none
      ∨ ∃ ts, data.timestamp = some ts ∧ parseTs ts = none) :
    ∀ (ths : List Threshold),
      (∃ t ∈ ths, ∃ v, data.metrics t.metric = some v ∧
        (liveViolationDesc t.metric.value v t.min_value t.max_value).isSome
          = true) →
      ∃ e, buildAnomalies parseTs data pid ths = .error e := by
  intro ths
  induction ths with
  | nil =>
      rintro ⟨t, ht, _⟩
      simp at ht
  | cons th rest ih =>
      rintro ⟨t, ht, v, hv, hd⟩
      rcases List.mem_cons.mp ht with rfl | htr
      · obtain ⟨e, he⟩ := buildAnomaly_error_of_violation parseTs data pid t v hbad hv hd
        exact ⟨e, by simp [buildAnomalies, he]⟩
      · rcases buildAnomaly_bad_ts parseTs data pid th hbad with h0 | ⟨e0, he0⟩
        · obtain ⟨e, he⟩ := ih ⟨t, htr, v, hv, hd⟩
          exact ⟨e, by simp [buildAnomalies, h0, he]⟩
        · exact ⟨e0, by simp [buildAnomalies, he0]⟩

/-- C10: a message whose timestamp field is absent, or not parseable as
ISO-8601, commits zero anomalies - even when several of its metrics violate
thresholds, since the timestamp is parsed while building each violation and
the single commit comes after the loop - dispatches no alert, and the
consumer continues with the following messages; when some threshold is in
fact violated, the evaluation aborts with a raised error. -/
theorem bad_timestamp_drops_event (parseTs : String → Option String)
    (table : List Threshold) (commitOk : Bool) (dOk : Nat → Bool)
    (data : VitalData) (st : SysState) (pid : String)
    (msgs : List (RawMessage × Bool × (Nat → Bool)))
    (hbad : data.timestamp = none
      ∨ ∃ ts, data.timestamp = some ts ∧ parseTs ts = none) :
    (process_vital_sign_event parseTs table commitOk dOk data st).db = st.db
    ∧ (process_vital_sign_event parseTs table commitOk dOk data st).alerts
        = st.alerts
    ∧ ((redis_listener parseTs table ((.parsed data, commitOk, dOk) :: msgs)
          st).db
        = st.db ++ listenerAnoms parseTs table msgs)
    ∧ ((∃ t ∈ thresholdsForPatient table (some pid), ∃ v,
          data.metrics t.metric = some v ∧
          (liveViolationDesc t.metric.value v t.min_value t.max_value).isSome
            = true) →
        ∃ e, buildAnomalies parseTs data pid
            (thresholdsForPatient table (some pid)) = .error e) := by
  have hstep : stepAnoms parseTs table commitOk (.parsed data) = [] := by
    unfold stepAnoms
    cases hpid : data.patient_id with
    | none => simp [hpid, thresholdsForPatient]
    | some p =>
        cases hth : thresholdsForPatient table (some p) with
        | nil => simp [hpid, hth]
        | cons th0 rest =>
            rcases buildAnomalies_bad_ts parseTs data p hbad (th0 :: rest)
              with h | ⟨e, h⟩
            · simp [hpid, hth, h]
            · simp [hpid, hth, h]
  refine ⟨?_, ?_, ?_, buildAnomalies_error_of_violation parseTs data pid hbad _⟩
  · rw [process_db, hstep]
    simp
  · rw [process_alerts, hstep]
    simp
  · rw [redis_listener_db]
    simp [listenerAnoms, hstep]

/-- Reading fixture with a violating heart-rate value and no timestamp
field. -/
def dataBadTs : VitalData :=
  ⟨some ("p1"), none,
   fun m => if m = .heart_rate then some (.vfloat 150) else none⟩

/-- Concrete instantiation of bad_timestamp_drops_event at the missing
timestamp fixture. -/
theorem bad_timestamp_drops_event_witness :
    (process_vital_sign_event tsOk [thHr] true (fun _ => true) dataBadTs
        ⟨[], [], []⟩).db = []
    ∧ (process_vital_sign_event tsOk [thHr] true (fun _ => true) dataBadTs
        ⟨[], [], []⟩).alerts = []
    ∧ ((redis_listener tsOk [thHr] [(.parsed dataBadTs, true, fun _ => true)]
          ⟨[], [], []⟩).db = [] ++ listenerAnoms tsOk [thHr] [])
    ∧ ((∃ t ∈ thresholdsForPatient [thHr] (some ("p1")), ∃ v,
          dataBadTs.metrics t.metric = some v ∧
          (liveViolationDesc t.metric.value v t.min_value t.max_value).isSome
            = true) →
        ∃ e, buildAnomalies tsOk dataBadTs ("p1")
            (thresholdsForPatient [thHr] (some ("p1"))) = .error e) :=
  bad_timestamp_drops_event tsOk [thHr] true (fun _ => true) dataBadTs
    ⟨[], [], []⟩ ("p1") [] (Or.inl rfl)
